import Mathlib

/-!
Shallow embedding of the rusend CLI (src/main.rs).

The program is a thin command-line client for a transactional-email API.
We embed, faithfully to the source:

* the configuration store (`load_config` / `save_config`), including the
  serde_json (de)serialization of `AppConfig` used by it, modelled at the
  character level;
* the recipient-address splitter `parse_to_vec`;
* the id-resolution helpers `resolve_sent_email_id` / `resolve_received_email_id`;
* every command handler of `main`, as a pure function of an environment
  (config-file state, stdin, and oracles for the remote API results) that
  returns the outcome together with the ordered trace of remote API calls
  issued.

File-system and network effects are represented by an explicit `Env`;
`serde_json` and the trimming/whitespace behaviour of Rust's standard
library are external library code and are modelled from their documented
semantics.
-/

/-- Unicode white-space characters recognised by Rust's `str::trim`
(`char::is_whitespace`, the Unicode `White_Space` property). -/
def rustWsB (c : Char) : Bool :=
  c = ' ' || c = '\t' || c = '\n' || c = '\r' || c = '\x0b' || c = '\x0c' ||
  c = '\u0085' || c = '\u00a0' || c = '\u1680' ||
  ('\u2000' ≤ c && c ≤ '\u200a') ||
  c = '\u2028' || c = '\u2029' || c = '\u202f' || c = '\u205f' || c = '\u3000'

/-- JSON insignificant whitespace, as accepted by serde_json. -/
def jsonWsB (c : Char) : Bool :=
  c = ' ' || c = '\t' || c = '\n' || c = '\r'

/-- Skip leading JSON whitespace. -/
def skipWs (l : List Char) : List Char := l.dropWhile jsonWsB

/-- Drop trailing Rust whitespace (the `trim_end` half of `str::trim`). -/
def dropTrailingWs : List Char → List Char
  | [] => []
  | c :: r =>
    match dropTrailingWs r with
    | [] => if rustWsB c then [] else [c]
    | r' => c :: r'

/-- Rust's `str::trim` on a list of characters. -/
def trimChars (l : List Char) : List Char := dropTrailingWs (l.dropWhile rustWsB)

/-- Rust's `str::trim` on strings. -/
def trimStr (s : String) : String := ⟨trimChars s.data⟩

/-- The local configuration record (`struct AppConfig`, with
`#[derive(Serialize, Deserialize, Default)]`). -/
structure AppConfig where
  api_key : String
  default_from : Option String
  default_to : Option String
deriving DecidableEq, Repr

/-- `AppConfig::default()`: empty key, no default addresses. -/
def defaultConfig : AppConfig :=
  { api_key := "", default_from := none, default_to := none }

/-! ### serde_json serialization of `AppConfig`

`save_config` writes `serde_json::to_string_pretty(cfg)`; `load_config`
reads the file back through `serde_json::from_str::<AppConfig>`.  We model
both at the character level: the printer emits exactly the pretty format
(two-space indent, `": "` separators, `null` for `None`), and the parser
accepts a JSON object for `AppConfig` with serde's derived semantics
(required `api_key` string, optional nullable `default_from` / `default_to`,
unknown fields skipped, duplicate known fields rejected, nothing but
whitespace after the value). -/

/-- Lower-case hexadecimal digit, as used by serde_json's `\u00XX` escapes. -/
def hexDigitChar (n : Nat) : Char := "0123456789abcdef".data.getD n '0'

/-- serde_json's escaping of a single character inside a JSON string:
quote and backslash are escaped, control characters below `0x20` use the
short escapes or `\u00XX`, and every other character is emitted raw. -/
def escChar (c : Char) : List Char :=
  if c = '"' then ['\\', '"']
  else if c = '\\' then ['\\', '\\']
  else if c = '\x08' then ['\\', 'b']
  else if c = '\t' then ['\\', 't']
  else if c = '\n' then ['\\', 'n']
  else if c = '\x0c' then ['\\', 'f']
  else if c = '\r' then ['\\', 'r']
  else if c.toNat < 0x20 then
    ['\\', 'u', '0', '0', hexDigitChar (c.toNat / 16), hexDigitChar (c.toNat % 16)]
  else [c]

/-- serde_json's escaping of a whole string body. -/
def escapeChars : List Char → List Char
  | [] => []
  | c :: cs => escChar c ++ escapeChars cs

/-- A JSON string literal (`"…"`) followed by a continuation. -/
def strLitCont (v rest : List Char) : List Char :=
  '"' :: (escapeChars v ++ ('"' :: rest))

/-- Serialization of an `Option String` field value (`null` for `None`),
followed by a continuation. -/
def optValCont : Option String → List Char → List Char
  | none, rest => 'n' :: 'u' :: 'l' :: 'l' :: rest
  | some s, rest => strLitCont s.data rest

/-- Everything after the opening brace of
`serde_json::to_string_pretty` of an `AppConfig`, whose full output is the
exact character sequence

```text
\x7b
  "api_key": <string>,
  "default_from": <string or null>,
  "default_to": <string or null>
\x7d
```

(with `\x7b`/`\x7d` the braces). -/
def prettyConfigTail (cfg : AppConfig) : List Char :=
  '\n' :: ' ' :: ' ' ::
  strLitCont "api_key".data (':' :: ' ' ::
    strLitCont cfg.api_key.data
      (',' :: '\n' :: ' ' :: ' ' ::
       strLitCont "default_from".data (':' :: ' ' ::
         optValCont cfg.default_from
           (',' :: '\n' :: ' ' :: ' ' ::
            strLitCont "default_to".data (':' :: ' ' ::
              optValCont cfg.default_to
                ('\n' :: '\x7d' :: []))))))

/-- The full pretty printout: the opening brace followed by the members
and the closing brace. -/
def prettyConfigChars (cfg : AppConfig) : List Char :=
  '\x7b' :: prettyConfigTail cfg

/-- Value of a hexadecimal digit character. -/
def hexVal (c : Char) : Option Nat :=
  if '0' ≤ c ∧ c ≤ '9' then some (c.toNat - '0'.toNat)
  else if 'a' ≤ c ∧ c ≤ 'f' then some (c.toNat - 'a'.toNat + 10)
  else if 'A' ≤ c ∧ c ≤ 'F' then some (c.toNat - 'A'.toNat + 10)
  else none

/-- Prepend a character to the parsed part of a string-parser result. -/
def consFst (c : Char) (o : Option (List Char × List Char)) :
    Option (List Char × List Char) :=
  o.map (fun p => (c :: p.1, p.2))

/-- Parse the body of a JSON string after the opening quote, returning the
decoded characters and the input after the closing quote.  Escapes follow
the JSON grammar as implemented by serde_json; raw control characters are
rejected.  (Simplification of the library: surrogate escapes, which
serde_json pairs up, are rejected; serde_json never emits them for the
strings this program writes.) -/
def parseStringBody : List Char → Option (List Char × List Char)
  | [] => none
  | c :: rest =>
    if c = '"' then some ([], rest)
    else if c = '\\' then
      match rest with
      | [] => none
      | e :: rest2 =>
        if e = '"' then consFst '"' (parseStringBody rest2)
        else if e = '\\' then consFst '\\' (parseStringBody rest2)
        else if e = '/' then consFst '/' (parseStringBody rest2)
        else if e = 'b' then consFst '\x08' (parseStringBody rest2)
        else if e = 'f' then consFst '\x0c' (parseStringBody rest2)
        else if e = 'n' then consFst '\n' (parseStringBody rest2)
        else if e = 'r' then consFst '\r' (parseStringBody rest2)
        else if e = 't' then consFst '\t' (parseStringBody rest2)
        else if e = 'u' then
          match rest2 with
          | a :: b :: c2 :: d :: rest3 =>
            match hexVal a, hexVal b, hexVal c2, hexVal d with
            | some ha, some hb, some hc, some hd =>
              let v := ((ha * 16 + hb) * 16 + hc) * 16 + hd
              if 0xd800 ≤ v ∧ v < 0xe000 then none
              else consFst (Char.ofNat v) (parseStringBody rest3)
            | _, _, _, _ => none
          | _ => none
        else none
    else if c.toNat < 0x20 then none
    else consFst c (parseStringBody rest)

/-- Parse a JSON value that must be a string (serde target `String`). -/
def parseStringValue (l : List Char) : Option (List Char × List Char) :=
  match skipWs l with
  | [] => none
  | c :: r => if c = '"' then parseStringBody r else none

/-- Parse a JSON value that must be a string or `null`
(serde target `Option<String>`). -/
def parseNullableString (l : List Char) : Option (Option (List Char) × List Char) :=
  match skipWs l with
  | [] => none
  | c :: r =>
    if c = '"' then (parseStringBody r).map (fun p => (some p.1, p.2))
    else if c = 'n' then
      match r with
      | 'u' :: 'l' :: 'l' :: r2 => some (none, r2)
      | _ => none
    else none

/-- Consume the characters of a JSON number token (loose model: serde_json
additionally validates the number grammar, which cannot matter for this
program's two struct targets, where a number in a typed position is an
error anyway). -/
def skipNumberChars (l : List Char) : List Char :=
  l.dropWhile (fun c => c.isDigit || c = '-' || c = '+' || c = '.' || c = 'e' || c = 'E')

mutual

/-- Skip over one arbitrary JSON value (used by serde's derived
deserializers to ignore unknown fields).  The fuel argument bounds the
recursion; every caller supplies more fuel than characters of input, and
every recursive call consumes at least one character, so the bound is
never hit on inputs serde would accept. -/
def skipValue : Nat → List Char → Option (List Char)
  | 0, _ => none
  | fuel + 1, input =>
    match skipWs input with
    | [] => none
    | c :: r =>
      if c = '"' then (parseStringBody r).map Prod.snd
      else if c = '\x7b' then
        match skipWs r with
        | [] => none
        | c2 :: r2 => if c2 = '\x7d' then some r2 else skipMembers fuel (c2 :: r2)
      else if c = '[' then
        match skipWs r with
        | [] => none
        | c2 :: r2 => if c2 = ']' then some r2 else skipElems fuel (c2 :: r2)
      else if c = 't' then
        match r with
        | 'r' :: 'u' :: 'e' :: r2 => some r2
        | _ => none
      else if c = 'f' then
        match r with
        | 'a' :: 'l' :: 's' :: 'e' :: r2 => some r2
        | _ => none
      else if c = 'n' then
        match r with
        | 'u' :: 'l' :: 'l' :: r2 => some r2
        | _ => none
      else if c = '-' || c.isDigit then some (skipNumberChars (c :: r))
      else none

/-- Skip the members of a JSON object, starting at a key. -/
def skipMembers : Nat → List Char → Option (List Char)
  | 0, _ => none
  | fuel + 1, input =>
    match input with
    | [] => none
    | c :: r =>
      if c = '"' then
        match parseStringBody r with
        | none => none
        | some (_, r2) =>
          match skipWs r2 with
          | [] => none
          | c2 :: r3 =>
            if c2 = ':' then
              match skipValue fuel r3 with
              | none => none
              | some r4 =>
                match skipWs r4 with
                | [] => none
                | c3 :: r5 =>
                  if c3 = ',' then skipMembers fuel (skipWs r5)
                  else if c3 = '\x7d' then some r5
                  else none
            else none
      else none

/-- Skip the elements of a JSON array, starting at a value. -/
def skipElems : Nat → List Char → Option (List Char)
  | 0, _ => none
  | fuel + 1, input =>
    match skipValue fuel input with
    | none => none
    | some r =>
      match skipWs r with
      | [] => none
      | c :: r2 =>
        if c = ',' then skipElems fuel r2
        else if c = ']' then some r2
        else none

end

/-- One pass of serde's derived deserializer for `AppConfig`, over the
members of the JSON object.  `sep = true` means a `,` or the closing brace
is expected next; `sep = false` means a member is expected.  The three
slots record fields already seen (`some` = seen), so duplicates are
rejected and `api_key` is required, exactly as serde's derive behaves;
unknown fields are skipped. -/
def parseConfigLoop :
    Nat → Bool → List Char → Option (List Char) →
    Option (Option (List Char)) → Option (Option (List Char)) →
    Option (AppConfig × List Char)
  | 0, _, _, _, _, _ => none
  | fuel + 1, true, input, k, f, t =>
    match skipWs input with
    | [] => none
    | c :: r =>
      if c = ',' then parseConfigLoop fuel false r k f t
      else if c = '\x7d' then
        match k with
        | none => none
        | some ak =>
          some ({ api_key := ⟨ak⟩,
                  default_from := (f.getD none).map (fun l => (⟨l⟩ : String)),
                  default_to := (t.getD none).map (fun l => (⟨l⟩ : String)) }, r)
      else none
  | fuel + 1, false, input, k, f, t =>
    match skipWs input with
    | [] => none
    | c :: r1 =>
      if c = '"' then
        match parseStringBody r1 with
        | none => none
        | some (keyCs, r2) =>
          match skipWs r2 with
          | [] => none
          | c2 :: r3 =>
            if c2 = ':' then
              if keyCs = "api_key".data then
                match k with
                | some _ => none
                | none =>
                  match parseStringValue r3 with
                  | none => none
                  | some (v, r4) => parseConfigLoop fuel true r4 (some v) f t
              else if keyCs = "default_from".data then
                match f with
                | some _ => none
                | none =>
                  match parseNullableString r3 with
                  | none => none
                  | some (v, r4) => parseConfigLoop fuel true r4 k (some v) t
              else if keyCs = "default_to".data then
                match t with
                | some _ => none
                | none =>
                  match parseNullableString r3 with
                  | none => none
                  | some (v, r4) => parseConfigLoop fuel true r4 k f (some v)
              else
                match skipValue fuel r3 with
                | none => none
                | some r4 => parseConfigLoop fuel true r4 k f t
            else none
      else none

/-- `serde_json::from_str::<AppConfig>` on a list of characters: a JSON
object for `AppConfig`, with nothing but whitespace allowed after it. -/
def parseTopConfig (l : List Char) : Option AppConfig :=
  match skipWs l with
  | [] => none
  | c :: rest =>
    if c = '\x7b' then
      match parseConfigLoop (l.length + 1) false rest none none none with
      | none => none
      | some (cfg, r) => if skipWs r = [] then some cfg else none
    else none

/-- `serde_json::from_str::<AppConfig>` on a string. -/
def parseAppConfig (s : String) : Option AppConfig := parseTopConfig s.data

/-! ### Config store (`save_config` / `load_config`) -/

/-- State of the credentials file as seen by one command invocation.
`ioError` stands for any I/O-level failure (unreadable file or
unobtainable configuration directory). -/
inductive FileState where
  | absent
  | ioError
  | content (s : String)

/-- `save_config`: write `serde_json::to_string_pretty(cfg)` to the
credentials file (the resulting file state). -/
def save_config (cfg : AppConfig) : FileState :=
  .content ⟨prettyConfigChars cfg⟩

/-- `load_config`: absent file gives the default config; otherwise read,
trim, try the JSON parse, fall back to treating non-empty trimmed content
as a legacy bare API key, and finally to the default config. -/
def load_config : FileState → Except String AppConfig
  | .absent => .ok defaultConfig
  | .ioError => .error "read config file"
  | .content s =>
    let t := trimStr s
    match parseAppConfig t with
    | some cfg => .ok cfg
    | none =>
      if t ≠ "" then
        .ok { api_key := t, default_from := none, default_to := none }
      else
        .ok defaultConfig

/-! ### `parse_to_vec` -/

/-- Rust's `str::split(',')` at the character level: the comma-separated
segments of the input, in order, keeping empty segments. -/
def splitComma : List Char → List (List Char)
  | [] => [[]]
  | c :: rest =>
    match splitComma rest with
    | [] => [[c]]
    | h :: tl => if c = ',' then [] :: h :: tl else (c :: h) :: tl

/-- `parse_to_vec` from src/main.rs: split on commas, trim each segment,
drop the empty ones. -/
def parse_to_vec (s : String) : List String :=
  (((splitComma s.data).map trimChars).filter (fun l => !l.isEmpty)).map
    (fun l => (⟨l⟩ : String))

/-! ### Email data model -/

/-- An email record as returned by the remote service's list/get endpoints
(the fields this program reads). -/
structure EmailRec where
  id : String
  created_at : String
  «from» : String
  «to» : List String
  subject : String
  html : Option String
  text : Option String
deriving DecidableEq, Repr

/-- `resend_rs::types::CreateEmailBaseOptions`, restricted to the fields
this program sets. -/
structure CreateEmailBaseOptions where
  «from» : String
  «to» : List String
  subject : String
  html : Option String
  text : Option String
deriving DecidableEq, Repr

/-- `CreateEmailBaseOptions::new(from, to, subject)`. -/
def CreateEmailBaseOptions.new (f : String) (tos : List String) (subj : String) :
    CreateEmailBaseOptions :=
  { «from» := f, «to» := tos, subject := subj, html := none, text := none }

/-- `with_html`. -/
def CreateEmailBaseOptions.with_html (e : CreateEmailBaseOptions) (h : String) :
    CreateEmailBaseOptions :=
  { e with html := some h }

/-- `with_text`. -/
def CreateEmailBaseOptions.with_text (e : CreateEmailBaseOptions) (t : String) :
    CreateEmailBaseOptions :=
  { e with text := some t }

/-- `struct BatchEmailInput` (derive Serialize, Deserialize): one record of
the batch input file. -/
structure BatchEmailInput where
  «from» : String
  «to» : List String
  subject : String
  html : Option String
  text : Option String
deriving DecidableEq, Repr

/-! ### serde_json deserialization of `Vec<BatchEmailInput>` -/

/-- Parse the elements of a JSON array of strings (serde target
`Vec<String>`), starting at the first element; `acc` holds the elements
parsed so far, in reverse. -/
def parseStringArrayElems :
    Nat → List Char → List (List Char) → Option (List (List Char) × List Char)
  | 0, _, _ => none
  | fuel + 1, input, acc =>
    match parseStringValue input with
    | none => none
    | some (v, r) =>
      match skipWs r with
      | [] => none
      | c :: r2 =>
        if c = ',' then parseStringArrayElems fuel r2 (v :: acc)
        else if c = ']' then some ((v :: acc).reverse, r2)
        else none

/-- Parse a JSON array of strings (serde target `Vec<String>`). -/
def parseStringArray (l : List Char) : Option (List (List Char) × List Char) :=
  match skipWs l with
  | [] => none
  | c :: r =>
    if c = '[' then
      match skipWs r with
      | [] => none
      | c2 :: r2 =>
        if c2 = ']' then some ([], r2)
        else parseStringArrayElems (l.length + 1) (c2 :: r2) []
    else none

/-- Fields of one `BatchEmailInput` seen so far while parsing its JSON
object (`some` = field already present). -/
structure BatchSlots where
  fromV : Option (List Char)
  toV : Option (List (List Char))
  subjectV : Option (List Char)
  htmlV : Option (Option (List Char))
  textV : Option (Option (List Char))

/-- serde's derived deserializer for one `BatchEmailInput` object, over its
members (`sep` as in `parseConfigLoop`).  `from`, `to` and `subject` are
required, `html` and `text` optional and nullable, unknown fields skipped,
duplicates rejected. -/
def parseBatchFieldsLoop :
    Nat → Bool → List Char → BatchSlots → Option (BatchEmailInput × List Char)
  | 0, _, _, _ => none
  | fuel + 1, true, input, s =>
    match skipWs input with
    | [] => none
    | c :: r =>
      if c = ',' then parseBatchFieldsLoop fuel false r s
      else if c = '\x7d' then
        match s.fromV, s.toV, s.subjectV with
        | some fv, some tv, some sv =>
          some ({ «from» := ⟨fv⟩,
                  «to» := tv.map (fun l => (⟨l⟩ : String)),
                  subject := ⟨sv⟩,
                  html := (s.htmlV.getD none).map (fun l => (⟨l⟩ : String)),
                  text := (s.textV.getD none).map (fun l => (⟨l⟩ : String)) }, r)
        | _, _, _ => none
      else none
  | fuel + 1, false, input, s =>
    match skipWs input with
    | [] => none
    | c :: r1 =>
      if c = '"' then
        match parseStringBody r1 with
        | none => none
        | some (keyCs, r2) =>
          match skipWs r2 with
          | [] => none
          | c2 :: r3 =>
            if c2 = ':' then
              if keyCs = "from".data then
                match s.fromV with
                | some _ => none
                | none =>
                  match parseStringValue r3 with
                  | none => none
                  | some (v, r4) =>
                    parseBatchFieldsLoop fuel true r4 { s with fromV := some v }
              else if keyCs = "to".data then
                match s.toV with
                | some _ => none
                | none =>
                  match parseStringArray r3 with
                  | none => none
                  | some (v, r4) =>
                    parseBatchFieldsLoop fuel true r4 { s with toV := some v }
              else if keyCs = "subject".data then
                match s.subjectV with
                | some _ => none
                | none =>
                  match parseStringValue r3 with
                  | none => none
                  | some (v, r4) =>
                    parseBatchFieldsLoop fuel true r4 { s with subjectV := some v }
              else if keyCs = "html".data then
                match s.htmlV with
                | some _ => none
                | none =>
                  match parseNullableString r3 with
                  | none => none
                  | some (v, r4) =>
                    parseBatchFieldsLoop fuel true r4 { s with htmlV := some v }
              else if keyCs = "text".data then
                match s.textV with
                | some _ => none
                | none =>
                  match parseNullableString r3 with
                  | none => none
                  | some (v, r4) =>
                    parseBatchFieldsLoop fuel true r4 { s with textV := some v }
              else
                match skipValue fuel r3 with
                | none => none
                | some r4 => parseBatchFieldsLoop fuel true r4 s
            else none
      else none

/-- Parse one `BatchEmailInput` JSON object. -/
def parseBatchObj (fuel : Nat) (l : List Char) : Option (BatchEmailInput × List Char) :=
  match skipWs l with
  | [] => none
  | c :: r =>
    if c = '\x7b' then
      parseBatchFieldsLoop fuel false r
        { fromV := none, toV := none, subjectV := none, htmlV := none, textV := none }
    else none

/-- Parse the elements of the batch array, starting at the first element;
`acc` holds elements parsed so far, in reverse. -/
def parseBatchElemsLoop :
    Nat → List Char → List BatchEmailInput → Option (List BatchEmailInput × List Char)
  | 0, _, _ => none
  | fuel + 1, input, acc =>
    match parseBatchObj fuel input with
    | none => none
    | some (b, r) =>
      match skipWs r with
      | [] => none
      | c :: r2 =>
        if c = ',' then parseBatchElemsLoop fuel r2 (b :: acc)
        else if c = ']' then some ((b :: acc).reverse, r2)
        else none

/-- `serde_json::from_str::<Vec<BatchEmailInput>>` on a list of characters. -/
def parseBatchTop (l : List Char) : Option (List BatchEmailInput) :=
  match skipWs l with
  | [] => none
  | c :: r =>
    if c = '[' then
      match skipWs r with
      | [] => none
      | c2 :: r2 =>
        if c2 = ']' then (if skipWs r2 = [] then some [] else none)
        else
          match parseBatchElemsLoop (l.length + 1) (c2 :: r2) [] with
          | none => none
          | some (bs, r3) => if skipWs r3 = [] then some bs else none
    else none

/-- `serde_json::from_str::<Vec<BatchEmailInput>>` on a string. -/
def parseBatchInput (s : String) : Option (List BatchEmailInput) := parseBatchTop s.data

/-! ### Environment and remote-call traces

Each command handler of `main` is embedded as a pure function of an `Env`
(the config-file state, stdin, and oracles giving the results the outside
world would return), producing a `RunResult`: the ordered list of remote
API calls issued through the `Resend` client, and the command's final
outcome (`Ok(())` or the propagated `anyhow` error message). -/

/-- One call issued through the `Resend` client, tagged with the API key
the client was constructed with. -/
inductive RemoteCall where
  | listSent (key : String)
  | listReceived (key : String)
  | getSent (key id : String)
  | getReceived (key id : String)
  | send (key : String) (email : CreateEmailBaseOptions)
  | batchSend (key : String) (emails : List CreateEmailBaseOptions)
  | update (key id : String) (scheduled_at : Option String)
  | cancel (key id : String)
deriving DecidableEq, Repr

/-- Outcome of running one command: the remote calls issued, in order, and
the process result. -/
structure RunResult where
  calls : List RemoteCall
  result : Except String Unit
deriving Repr

/-- The world as seen by a single command invocation: the credentials
file, stdin, whether writing the config file succeeds, the batch file
content, and the results the remote service returns for each endpoint. -/
structure Env where
  file : FileState
  stdinLine : Except String String
  stdinAll : Except String String
  saveOk : Bool
  batchFile : Except String String
  sentList : Except String (List EmailRec)
  receivedList : Except String (List EmailRec)
  sentGet : String → Except String EmailRec
  receivedGet : String → Except String EmailRec
  sendResult : Except String Unit
  batchSendResult : Except String Unit
  updateResult : Except String String
  cancelResult : Except String String

/-- `anyhow`'s `.context(msg)`: prefix a failure with a description of the
step that failed. -/
def ctx (m e : String) : String := m ++ ": " ++ e

/-- `resolve_sent_email_id`: a provided id is returned unchanged with no
remote call; otherwise list the sent emails and take the first, failing on
an empty list. -/
def resolve_sent_email_id (key : String) (env : Env) (provided : Option String) :
    List RemoteCall × Except String String :=
  match provided with
  | some id => ([], .ok id)
  | none =>
    match env.sentList with
    | .error e => ([.listSent key], .error (ctx "list sent emails to find newest" e))
    | .ok [] => ([.listSent key], .error "No sent emails available to display.")
    | .ok (email :: _) => ([.listSent key], .ok email.id)

/-- `resolve_received_email_id`: as `resolve_sent_email_id`, over the
inbox listing. -/
def resolve_received_email_id (key : String) (env : Env) (provided : Option String) :
    List RemoteCall × Except String String :=
  match provided with
  | some id => ([], .ok id)
  | none =>
    match env.receivedList with
    | .error e => ([.listReceived key], .error (ctx "list received emails to find newest" e))
    | .ok [] => ([.listReceived key], .error "No received emails available to display.")
    | .ok (email :: _) => ([.listReceived key], .ok email.id)

/-- Arguments of the `config` subcommand. -/
structure ConfigArgs where
  key : Option String
  default_from : Option String
  default_to : Option String

/-- Rust's `Option::or`. -/
def optOr : Option String → Option String → Option String
  | some x, _ => some x
  | none, b => b

/-- Tail of the `config` handler after the API key has been settled:
overlay the provided default addresses and save. -/
def runConfigFinish (a : ConfigArgs) (cfg : AppConfig) (env : Env) : RunResult :=
  let cfg2 := { cfg with
    default_from := optOr a.default_from cfg.default_from,
    default_to := optOr a.default_to cfg.default_to }
  let _written := save_config cfg2
  if env.saveOk then
    ⟨[], .ok ()⟩
  else
    ⟨[], .error "write config file"⟩

/-- The `Commands::Config` arm: `load_config().unwrap_or_default()`, key
from the flag or (if the stored key is empty) from a prompted stdin line
(`read_password` reads a line and trims it), then overlay defaults and
save. -/
def runConfig (a : ConfigArgs) (env : Env) : RunResult :=
  let cfg0 := match load_config env.file with
    | .ok c => c
    | .error _ => defaultConfig
  match a.key with
  | some k => runConfigFinish a { cfg0 with api_key := k } env
  | none =>
    if cfg0.api_key = "" then
      match env.stdinLine with
      | .error e => ⟨[], .error (ctx "failed to read api key" e)⟩
      | .ok line => runConfigFinish a { cfg0 with api_key := trimStr line } env
    else runConfigFinish a cfg0 env

/-- Arguments of the `send` subcommand.  (clap enforces
`subject required_unless_present id` and that `html`, `text` and
`from_stdin` conflict with `id`.) -/
structure SendArgs where
  «from» : Option String
  «to» : Option String
  subject : Option String
  html : Option String
  text : Option String
  from_stdin : Bool
  id : Option String

/-- The `Commands::Send` arm. -/
def runSend (args : SendArgs) (env : Env) : RunResult :=
  match load_config env.file with
  | .error e => ⟨[], .error e⟩
  | .ok config =>
    let api_key := config.api_key
    match optOr args.«from» config.default_from with
    | none => ⟨[], .error "From address not provided and no default set"⟩
    | some from_addr =>
      match optOr args.«to» config.default_to with
      | none => ⟨[], .error "To address not provided and no default set"⟩
      | some to_addr =>
        match args.id with
        | some id =>
          match resolve_received_email_id api_key env (some id) with
          | (calls1, .error e) => ⟨calls1, .error e⟩
          | (calls1, .ok email_id) =>
            match env.receivedGet email_id with
            | .error e =>
              ⟨calls1 ++ [.getReceived api_key email_id],
               .error (ctx "get received email for forwarding failed" e)⟩
            | .ok r =>
              let subject := args.subject.getD ("Fwd: " ++ r.subject)
              let email :=
                CreateEmailBaseOptions.new from_addr (parse_to_vec to_addr) subject
              let email := match r.html with
                | some h => email.with_html h
                | none => email
              let email := match r.text with
                | some t => email.with_text t
                | none => email
              match env.sendResult with
              | .error e =>
                ⟨calls1 ++ [.getReceived api_key email_id, .send api_key email],
                 .error (ctx "send failed" e)⟩
              | .ok _ =>
                ⟨calls1 ++ [.getReceived api_key email_id, .send api_key email], .ok ()⟩
        | none =>
          match (if args.from_stdin then env.stdinAll.map some
                 else .ok args.html : Except String (Option String)) with
          | .error e => ⟨[], .error (ctx "stdin read" e)⟩
          | .ok body_html =>
            match args.subject with
            | none => ⟨[], .error "panicked: called Option::unwrap on a None value"⟩
            | some subject =>
              let email :=
                CreateEmailBaseOptions.new from_addr (parse_to_vec to_addr) subject
              let email := match body_html with
                | some h => email.with_html h
                | none => email
              let email := match args.text with
                | some t => email.with_text t
                | none => email
              match env.sendResult with
              | .error e => ⟨[.send api_key email], .error (ctx "send failed" e)⟩
              | .ok _ => ⟨[.send api_key email], .ok ()⟩

/-- Mapping of one `BatchEmailInput` to a `CreateEmailBaseOptions`, as in
the `Commands::Batch` arm. -/
def toEmailMessage (b : BatchEmailInput) : CreateEmailBaseOptions :=
  let e := CreateEmailBaseOptions.new b.«from» b.«to» b.subject
  let e := match b.html with
    | some h => e.with_html h
    | none => e
  match b.text with
  | some t => e.with_text t
  | none => e

/-- The `Commands::Batch` arm: read the file, parse the JSON array, map
every record, submit one batch request. -/
def runBatch (env : Env) : RunResult :=
  match load_config env.file with
  | .error e => ⟨[], .error e⟩
  | .ok cfg =>
    match env.batchFile with
    | .error e => ⟨[], .error (ctx "read batch file" e)⟩
    | .ok content =>
      match parseBatchInput content with
      | none => ⟨[], .error "parse json"⟩
      | some batch =>
        let emails := batch.map toEmailMessage
        match env.batchSendResult with
        | .error e => ⟨[.batchSend cfg.api_key emails], .error (ctx "batch send failed" e)⟩
        | .ok _ => ⟨[.batchSend cfg.api_key emails], .ok ()⟩

/-- The `Commands::List` arm (`count` only limits local printing). -/
def runList (_count : Option Nat) (env : Env) : RunResult :=
  match load_config env.file with
  | .error e => ⟨[], .error e⟩
  | .ok cfg =>
    match env.sentList with
    | .error e => ⟨[.listSent cfg.api_key], .error (ctx "list failed" e)⟩
    | .ok _ => ⟨[.listSent cfg.api_key], .ok ()⟩

/-- The `Commands::Get` arm: resolve the id (newest when omitted), then
fetch the single record. -/
def runGet (id : Option String) (env : Env) : RunResult :=
  match load_config env.file with
  | .error e => ⟨[], .error e⟩
  | .ok cfg =>
    match resolve_sent_email_id cfg.api_key env id with
    | (calls1, .error e) => ⟨calls1, .error e⟩
    | (calls1, .ok email_id) =>
      match env.sentGet email_id with
      | .error e => ⟨calls1 ++ [.getSent cfg.api_key email_id], .error (ctx "get failed" e)⟩
      | .ok _ => ⟨calls1 ++ [.getSent cfg.api_key email_id], .ok ()⟩

/-- The `Commands::Update` arm. -/
def runUpdate (id : String) (scheduled_at : Option String) (env : Env) : RunResult :=
  match load_config env.file with
  | .error e => ⟨[], .error e⟩
  | .ok cfg =>
    match env.updateResult with
    | .error e => ⟨[.update cfg.api_key id scheduled_at], .error (ctx "update failed" e)⟩
    | .ok _ => ⟨[.update cfg.api_key id scheduled_at], .ok ()⟩

/-- The `Commands::Cancel` arm. -/
def runCancel (id : String) (env : Env) : RunResult :=
  match load_config env.file with
  | .error e => ⟨[], .error e⟩
  | .ok cfg =>
    match env.cancelResult with
    | .error e => ⟨[.cancel cfg.api_key id], .error (ctx "cancel failed" e)⟩
    | .ok _ => ⟨[.cancel cfg.api_key id], .ok ()⟩

/-- The `Commands::ReceivedList` arm. -/
def runReceivedList (_count : Option Nat) (env : Env) : RunResult :=
  match load_config env.file with
  | .error e => ⟨[], .error e⟩
  | .ok cfg =>
    match env.receivedList with
    | .error e => ⟨[.listReceived cfg.api_key], .error (ctx "list receiving failed" e)⟩
    | .ok _ => ⟨[.listReceived cfg.api_key], .ok ()⟩

/-- The `Commands::ReceivedGet` arm. -/
def runReceivedGet (id : Option String) (env : Env) : RunResult :=
  match load_config env.file with
  | .error e => ⟨[], .error e⟩
  | .ok cfg =>
    match resolve_received_email_id cfg.api_key env id with
    | (calls1, .error e) => ⟨calls1, .error e⟩
    | (calls1, .ok email_id) =>
      match env.receivedGet email_id with
      | .error e =>
        ⟨calls1 ++ [.getReceived cfg.api_key email_id], .error (ctx "get receiving failed" e)⟩
      | .ok _ => ⟨calls1 ++ [.getReceived cfg.api_key email_id], .ok ()⟩

/-- The `Commands::Completions` arm: writes a completion script to stdout,
touching neither the config nor the network. -/
def runCompletions : RunResult := ⟨[], .ok ()⟩

/-- A default world used to build concrete test environments. -/
def envBase : Env :=
  { file := .absent
    stdinLine := .ok ""
    stdinAll := .ok ""
    saveOk := true
    batchFile := .error "no such file"
    sentList := .ok []
    receivedList := .ok []
    sentGet := fun _ => .error "not found"
    receivedGet := fun _ => .error "not found"
    sendResult := .ok ()
    batchSendResult := .ok ()
    updateResult := .ok "em_1"
    cancelResult := .ok "em_1" }

/-! ## Lemmas: the string escape round-trip -/

theorem hexVal_hexDigitChar (n : Nat) (h : n < 16) : hexVal (hexDigitChar n) = some n := by
  interval_cases n <;> decide

/-- Parsing one escaped character undoes `escChar`. -/
theorem parseStringBody_escChar (c : Char) (tail : List Char) :
    parseStringBody (escChar c ++ tail) = consFst c (parseStringBody tail) := by
  by_cases h1 : c = '"'
  · subst h1
    rw [show escChar '"' = ['\\', '"'] from by decide]
    simp only [List.cons_append, List.nil_append]
    rw [parseStringBody.eq_def]; simp
  by_cases h2 : c = '\\'
  · subst h2
    rw [show escChar '\\' = ['\\', '\\'] from by decide]
    simp only [List.cons_append, List.nil_append]
    rw [parseStringBody.eq_def]; simp
  by_cases h3 : c = '\x08'
  · subst h3
    rw [show escChar '\x08' = ['\\', 'b'] from by decide]
    simp only [List.cons_append, List.nil_append]
    rw [parseStringBody.eq_def]; simp
  by_cases h4 : c = '\t'
  · subst h4
    rw [show escChar '\t' = ['\\', 't'] from by decide]
    simp only [List.cons_append, List.nil_append]
    rw [parseStringBody.eq_def]; simp
  by_cases h5 : c = '\n'
  · subst h5
    rw [show escChar '\n' = ['\\', 'n'] from by decide]
    simp only [List.cons_append, List.nil_append]
    rw [parseStringBody.eq_def]; simp
  by_cases h6 : c = '\x0c'
  · subst h6
    rw [show escChar '\x0c' = ['\\', 'f'] from by decide]
    simp only [List.cons_append, List.nil_append]
    rw [parseStringBody.eq_def]; simp
  by_cases h7 : c = '\r'
  · subst h7
    rw [show escChar '\r' = ['\\', 'r'] from by decide]
    simp only [List.cons_append, List.nil_append]
    rw [parseStringBody.eq_def]; simp
  by_cases h8 : c.toNat < 0x20
  · have hesc : escChar c =
        ['\\', 'u', '0', '0', hexDigitChar (c.toNat / 16), hexDigitChar (c.toNat % 16)] := by
      simp [escChar, h1, h2, h3, h4, h5, h6, h7, h8]
    rw [hesc]
    simp only [List.cons_append, List.nil_append]
    rw [parseStringBody.eq_def]
    have e0 : hexVal '0' = some 0 := by decide
    have e1 : hexVal (hexDigitChar (c.toNat / 16)) = some (c.toNat / 16) :=
      hexVal_hexDigitChar _ (by omega)
    have e2 : hexVal (hexDigitChar (c.toNat % 16)) = some (c.toNat % 16) :=
      hexVal_hexDigitChar _ (by omega)
    have hs : ¬((0xd800 : Nat) ≤ c.toNat ∧ c.toNat < 0xe000) := by omega
    simp [e0, e1, e2]
    rw [show c.toNat / 16 * 16 + c.toNat % 16 = c.toNat from by omega]
    rw [if_neg hs, Char.ofNat_toNat]
  · have hesc : escChar c = [c] := by
      simp [escChar, h1, h2, h3, h4, h5, h6, h7, h8]
    rw [hesc]
    simp only [List.cons_append, List.nil_append]
    rw [parseStringBody.eq_def]
    simp [h1, h2, h8]

/-- Parsing a JSON string body undoes serde_json's escaping of a whole
string, leaving exactly the continuation after the closing quote. -/
theorem parseStringBody_escape (s : List Char) :
    ∀ rest, parseStringBody (escapeChars s ++ ('"' :: rest)) = some (s, rest) := by
  induction s with
  | nil =>
    intro rest
    rw [show escapeChars [] = [] from rfl, List.nil_append, parseStringBody.eq_def]
    simp
  | cons c cs ih =>
    intro rest
    rw [show escapeChars (c :: cs) = escChar c ++ escapeChars cs from rfl,
      List.append_assoc, parseStringBody_escChar, ih]
    rfl

/-! ## Lemmas: whitespace skipping -/

theorem skipWs_space (l : List Char) : skipWs (' ' :: l) = skipWs l := by
  simp [skipWs, List.dropWhile_cons, jsonWsB]

theorem skipWs_newline (l : List Char) : skipWs ('\n' :: l) = skipWs l := by
  simp [skipWs, List.dropWhile_cons, jsonWsB]

theorem skipWs_cons_of_not_ws (c : Char) (l : List Char) (h : jsonWsB c = false) :
    skipWs (c :: l) = c :: l := by
  simp [skipWs, List.dropWhile_cons, h]

theorem skipWs_strLitCont (v rest : List Char) :
    skipWs (strLitCont v rest) = strLitCont v rest := by
  simp [strLitCont, skipWs, List.dropWhile_cons, jsonWsB]

theorem skipWs_nil : skipWs [] = [] := rfl

/-! ## Lemmas: typed JSON value parsing on printed output -/

/-- `parseStringValue` on `": "` plus a printed string literal. -/
theorem parseStringValue_escape (v rest : List Char) :
    parseStringValue (' ' :: '"' :: (escapeChars v ++ ('"' :: rest))) = some (v, rest) := by
  simp only [parseStringValue, skipWs_space]
  rw [skipWs_cons_of_not_ws _ _ (by decide)]
  simp [parseStringBody_escape]

/-- `parseNullableString` on a printed `null` value. -/
theorem parseNullableString_null (rest : List Char) :
    parseNullableString (' ' :: 'n' :: 'u' :: 'l' :: 'l' :: rest) = some (none, rest) := by
  simp only [parseNullableString, skipWs_space]
  rw [skipWs_cons_of_not_ws _ _ (by decide)]
  simp

theorem parseNullableString_escape (v rest : List Char) :
    parseNullableString (' ' :: '"' :: (escapeChars v ++ ('"' :: rest))) =
      some (some v, rest) := by
  simp only [parseNullableString, skipWs_space]
  rw [skipWs_cons_of_not_ws _ _ (by decide)]
  simp [parseStringBody_escape]

/-! ## Lemmas: `parseConfigLoop` on the pretty-printed object -/

theorem configLoop_sep_comma (fuel : Nat) (rest : List Char) (k : Option (List Char))
    (f t : Option (Option (List Char))) :
    parseConfigLoop (fuel + 1) true (',' :: rest) k f t =
      parseConfigLoop fuel false rest k f t := by
  simp only [parseConfigLoop]
  rw [skipWs_cons_of_not_ws _ _ (by decide)]
  simp

theorem configLoop_end (fuel : Nat) (ak : List Char)
    (f t : Option (Option (List Char))) :
    parseConfigLoop (fuel + 1) true ('\n' :: '\x7d' :: []) (some ak) f t =
      some ({ api_key := ⟨ak⟩,
              default_from := (f.getD none).map (fun l => (⟨l⟩ : String)),
              default_to := (t.getD none).map (fun l => (⟨l⟩ : String)) }, []) := by
  simp only [parseConfigLoop, skipWs_newline]
  rw [skipWs_cons_of_not_ws _ _ (by decide)]
  simp

theorem configLoop_field_api_key (fuel : Nat) (v rest : List Char)
    (f t : Option (Option (List Char))) :
    parseConfigLoop (fuel + 1) false
        ('\n' :: ' ' :: ' ' :: strLitCont "api_key".data (':' :: ' ' :: strLitCont v rest))
        none f t =
      parseConfigLoop fuel true rest (some v) f t := by
  simp only [parseConfigLoop, skipWs_newline, skipWs_space, skipWs_strLitCont]
  simp only [strLitCont]
  simp only [parseStringBody_escape]
  rw [skipWs_cons_of_not_ws _ _ (by decide)]
  simp [parseStringValue_escape]

theorem configLoop_field_default_from (fuel : Nat) (o : Option String) (rest : List Char)
    (k : Option (List Char)) (t : Option (Option (List Char))) :
    parseConfigLoop (fuel + 1) false
        ('\n' :: ' ' :: ' ' ::
          strLitCont "default_from".data (':' :: ' ' :: optValCont o rest))
        k none t =
      parseConfigLoop fuel true rest k (some (o.map String.data)) t := by
  cases o with
  | none =>
    simp only [parseConfigLoop, skipWs_newline, skipWs_space, skipWs_strLitCont]
    simp only [strLitCont, optValCont]
    simp only [parseStringBody_escape]
    rw [skipWs_cons_of_not_ws _ _ (by decide)]
    simp [parseNullableString_null]
  | some s =>
    simp only [parseConfigLoop, skipWs_newline, skipWs_space, skipWs_strLitCont]
    simp only [strLitCont, optValCont]
    simp only [parseStringBody_escape]
    rw [skipWs_cons_of_not_ws _ _ (by decide)]
    simp [parseNullableString_escape]

theorem configLoop_field_default_to (fuel : Nat) (o : Option String) (rest : List Char)
    (k : Option (List Char)) (f : Option (Option (List Char))) :
    parseConfigLoop (fuel + 1) false
        ('\n' :: ' ' :: ' ' ::
          strLitCont "default_to".data (':' :: ' ' :: optValCont o rest))
        k f none =
      parseConfigLoop fuel true rest k f (some (o.map String.data)) := by
  cases o with
  | none =>
    simp only [parseConfigLoop, skipWs_newline, skipWs_space, skipWs_strLitCont]
    simp only [strLitCont, optValCont]
    simp only [parseStringBody_escape]
    rw [skipWs_cons_of_not_ws _ _ (by decide)]
    simp [parseNullableString_null]
  | some s =>
    simp only [parseConfigLoop, skipWs_newline, skipWs_space, skipWs_strLitCont]
    simp only [strLitCont, optValCont]
    simp only [parseStringBody_escape]
    rw [skipWs_cons_of_not_ws _ _ (by decide)]
    simp [parseNullableString_escape]

/-- `parseConfigLoop` consumes the printed members and recovers the
configuration exactly, for any sufficient fuel. -/
theorem parseConfigLoop_pretty (m : Nat) (cfg : AppConfig) :
    parseConfigLoop (m + 6) false (prettyConfigTail cfg) none none none =
      some (cfg, []) := by
  obtain ⟨ak, df, dt⟩ := cfg
  simp only [prettyConfigTail]
  rw [configLoop_field_api_key, configLoop_sep_comma, configLoop_field_default_from,
    configLoop_sep_comma, configLoop_field_default_to, configLoop_end]
  cases df <;> cases dt <;> rfl

/-- Helper: `parseTopConfig` on a brace followed by members that parse
completely. -/
theorem parseTopConfig_shape (T : List Char) (cfg : AppConfig)
    (h : ∀ m, parseConfigLoop (m + 6) false T none none none = some (cfg, []))
    (hlen : 4 ≤ T.length) :
    parseTopConfig ('\x7b' :: T) = some cfg := by
  simp only [parseTopConfig]
  rw [skipWs_cons_of_not_ws _ _ (by decide)]
  simp only [List.length_cons]
  rw [show T.length + 1 + 1 = (T.length - 4) + 6 from by omega]
  rw [h]
  simp [skipWs_nil]

theorem prettyConfigTail_length (cfg : AppConfig) : 4 ≤ (prettyConfigTail cfg).length := by
  simp [prettyConfigTail, strLitCont]

/-- `serde_json::from_str::<AppConfig>` inverts
`serde_json::to_string_pretty`. -/
theorem parseTopConfig_pretty (cfg : AppConfig) :
    parseTopConfig (prettyConfigChars cfg) = some cfg := by
  simp only [prettyConfigChars]
  exact parseTopConfig_shape _ cfg (fun m => parseConfigLoop_pretty m cfg)
    (prettyConfigTail_length cfg)

/-! ## Lemmas: trimming leaves the printed config unchanged -/

/-- A list that `dropTrailingWs` keeps whole (its last character is not
whitespace), and that is nonempty. -/
def keepsEnd (l : List Char) : Prop := dropTrailingWs l = l ∧ l ≠ []

theorem keepsEnd_cons (c : Char) (l : List Char) (h : keepsEnd l) : keepsEnd (c :: l) := by
  obtain ⟨h1, h2⟩ := h
  cases l with
  | nil => exact absurd rfl h2
  | cons a as =>
    refine ⟨?_, by simp⟩
    rw [dropTrailingWs.eq_def]
    simp [h1]

theorem keepsEnd_append (l₁ l₂ : List Char) (h : keepsEnd l₂) : keepsEnd (l₁ ++ l₂) := by
  induction l₁ with
  | nil => simpa using h
  | cons c cs ih => simpa using keepsEnd_cons c (cs ++ l₂) ih

theorem keepsEnd_strLitCont (v rest : List Char) (h : keepsEnd rest) :
    keepsEnd (strLitCont v rest) := by
  simp only [strLitCont]
  exact keepsEnd_cons _ _ (keepsEnd_append _ _ (keepsEnd_cons _ _ h))

theorem keepsEnd_optValCont (o : Option String) (rest : List Char) (h : keepsEnd rest) :
    keepsEnd (optValCont o rest) := by
  cases o with
  | none =>
    simp only [optValCont]
    exact keepsEnd_cons _ _ (keepsEnd_cons _ _ (keepsEnd_cons _ _ (keepsEnd_cons _ _ h)))
  | some s => exact keepsEnd_strLitCont _ _ h

theorem keepsEnd_closing : keepsEnd ('\n' :: '\x7d' :: []) := by
  constructor
  · decide
  · simp

theorem keepsEnd_pretty (cfg : AppConfig) : keepsEnd (prettyConfigChars cfg) := by
  simp only [prettyConfigChars, prettyConfigTail]
  apply keepsEnd_cons
  apply keepsEnd_cons
  apply keepsEnd_cons
  apply keepsEnd_cons
  apply keepsEnd_strLitCont
  apply keepsEnd_cons
  apply keepsEnd_cons
  apply keepsEnd_strLitCont
  apply keepsEnd_cons
  apply keepsEnd_cons
  apply keepsEnd_cons
  apply keepsEnd_cons
  apply keepsEnd_strLitCont
  apply keepsEnd_cons
  apply keepsEnd_cons
  apply keepsEnd_optValCont
  apply keepsEnd_cons
  apply keepsEnd_cons
  apply keepsEnd_cons
  apply keepsEnd_cons
  apply keepsEnd_strLitCont
  apply keepsEnd_cons
  apply keepsEnd_cons
  apply keepsEnd_optValCont
  exact keepsEnd_closing

/-- Rust's `trim` leaves the pretty-printed config unchanged: it starts
with a brace and ends with a brace. -/
theorem trimChars_pretty (cfg : AppConfig) :
    trimChars (prettyConfigChars cfg) = prettyConfigChars cfg := by
  have hdrop : (prettyConfigChars cfg).dropWhile rustWsB = prettyConfigChars cfg := by
    simp only [prettyConfigChars]
    simp [List.dropWhile_cons, rustWsB]
  simp only [trimChars]
  rw [hdrop, (keepsEnd_pretty cfg).1]

/-! ## The config round-trip -/

/-- Claim C4: `save_config` followed by `load_config` recovers any
configuration exactly. -/
theorem save_load_roundtrip (cfg : AppConfig) :
    load_config (save_config cfg) = .ok cfg := by
  show load_config (.content ⟨prettyConfigChars cfg⟩) = .ok cfg
  have ht : trimStr (⟨prettyConfigChars cfg⟩ : String) = ⟨prettyConfigChars cfg⟩ := by
    simp only [trimStr]
    exact congrArg String.mk (trimChars_pretty cfg)
  have hp : parseAppConfig (⟨prettyConfigChars cfg⟩ : String) = some cfg := by
    simp only [parseAppConfig]
    exact parseTopConfig_pretty cfg
  simp only [load_config, ht, hp]

/-! ## `load_config` case analysis (claim C3) -/

/-- Claim C3: `load_config` is total over file states and follows the
JSON-then-legacy-then-default cascade; in particular a file holding just
`re_abc123` loads as a bare legacy API key. -/
theorem load_config_cases :
    (load_config .absent = .ok defaultConfig)
    ∧ (∀ s cfg, parseAppConfig (trimStr s) = some cfg →
        load_config (.content s) = .ok cfg)
    ∧ (∀ s, parseAppConfig (trimStr s) = none → trimStr s ≠ "" →
        load_config (.content s) =
          .ok { api_key := trimStr s, default_from := none, default_to := none })
    ∧ (∀ s, parseAppConfig (trimStr s) = none → trimStr s = "" →
        load_config (.content s) = .ok defaultConfig)
    ∧ (∀ s, ∃ cfg, load_config (.content s) = .ok cfg)
    ∧ load_config (.content "re_abc123") =
        .ok { api_key := "re_abc123", default_from := none, default_to := none } := by
  refine ⟨rfl, ?_, ?_, ?_, ?_, rfl⟩
  · intro s cfg h
    simp only [load_config, h]
  · intro s h hne
    simp only [load_config, h]
    simp [hne]
  · intro s h he
    simp only [load_config, h]
    simp [he]
  · intro s
    match hp : parseAppConfig (trimStr s) with
    | some cfg => exact ⟨cfg, by simp only [load_config, hp]⟩
    | none =>
      by_cases he : trimStr s = ""
      · exact ⟨defaultConfig, by simp only [load_config, hp]; simp [he]⟩
      · refine ⟨{ api_key := trimStr s, default_from := none, default_to := none }, ?_⟩
        simp only [load_config, hp]
        simp [he]

/-- Witness for C3 at concrete inputs: a JSON config file, and a
whitespace-only file. -/
theorem load_config_cases_witness :
    load_config (.content "\x7b\"api_key\": \"k\"\x7d") =
      .ok { api_key := "k", default_from := none, default_to := none }
    ∧ load_config (.content "   ") = .ok defaultConfig := by
  constructor
  · exact load_config_cases.2.1 _ _ (by decide)
  · exact load_config_cases.2.2.2.1 _ (by decide) (by decide)

/-! ## `parse_to_vec` (claim C5) -/

/-- The inverse of comma-splitting: glue segments with commas. -/
def intercalateComma : List (List Char) → List Char
  | [] => []
  | [s] => s
  | s :: rest => s ++ ',' :: intercalateComma rest

theorem splitComma_exists_cons (l : List Char) : ∃ a as, splitComma l = a :: as := by
  induction l with
  | nil => exact ⟨[], [], rfl⟩
  | cons c cs ih =>
    obtain ⟨a, as, h⟩ := ih
    simp only [splitComma, h]
    by_cases hc : c = ','
    · exact ⟨[], a :: as, by simp [hc]⟩
    · exact ⟨c :: a, as, by simp [hc]⟩

theorem splitComma_no_comma (l : List Char) (h : ',' ∉ l) : splitComma l = [l] := by
  induction l with
  | nil => rfl
  | cons c cs ih =>
    have hc : ¬c = ',' := fun hc => h (by simp [hc])
    have hcs : ',' ∉ cs := fun hm => h (by simp [hm])
    simp only [splitComma, ih hcs]
    simp [hc]

theorem splitComma_append_comma (s t : List Char) (h : ',' ∉ s) :
    splitComma (s ++ ',' :: t) = s :: splitComma t := by
  induction s with
  | nil =>
    obtain ⟨a, as, ht⟩ := splitComma_exists_cons t
    simp only [List.nil_append, splitComma, ht]
    simp
  | cons c cs ih =>
    have hc : ¬c = ',' := fun hc => h (by simp [hc])
    have hcs : ',' ∉ cs := fun hm => h (by simp [hm])
    simp only [List.cons_append, splitComma, List.append_eq]
    rw [ih hcs]
    simp [hc]

theorem splitComma_intercalate (segs : List (List Char)) (hne : segs ≠ [])
    (h : ∀ seg ∈ segs, ',' ∉ seg) :
    splitComma (intercalateComma segs) = segs := by
  induction segs with
  | nil => exact absurd rfl hne
  | cons s rest ih =>
    cases rest with
    | nil =>
      simp only [intercalateComma]
      exact splitComma_no_comma s (h s (by simp))
    | cons s2 rest2 =>
      simp only [intercalateComma]
      rw [splitComma_append_comma _ _ (h s (by simp))]
      rw [ih (by simp) (fun seg hs => h seg (by simp [hs]))]

/-- Claim C5: the recipient parser splits on commas, trims each segment,
drops empty segments and preserves order — stated against an independent
characterisation (any comma-intercalation of comma-free segments) — and
handles the documented example. -/
theorem parse_to_vec_spec :
    (∀ segs : List (List Char), segs ≠ [] → (∀ seg ∈ segs, ',' ∉ seg) →
      parse_to_vec ⟨intercalateComma segs⟩ =
        ((segs.map trimChars).filter (fun l => !l.isEmpty)).map (fun l => (⟨l⟩ : String)))
    ∧ parse_to_vec "a@x.com, b@y.com ,,c@z.com" = ["a@x.com", "b@y.com", "c@z.com"] := by
  constructor
  · intro segs h1 h2
    simp only [parse_to_vec]
    rw [splitComma_intercalate segs h1 h2]
  · decide

/-- Witness for C5 at a concrete segment list. -/
theorem parse_to_vec_spec_witness :
    parse_to_vec ⟨intercalateComma [['a'], [' ', 'b'], []]⟩ = ["a", "b"] := by
  rw [parse_to_vec_spec.1 [['a'], [' ', 'b'], []] (by decide) (by decide)]
  decide

/-! ## The `send` command (claims C6, C7, C10) -/

/-- Claim C6: `send` resolves `from` and `to` independently, flag before
config default; a field with neither errors before any remote call; and
the documented precedence example holds. -/
theorem send_address_resolution :
    (∀ args env cfg, load_config env.file = .ok cfg →
      optOr args.«from» cfg.default_from = none →
      runSend args env = ⟨[], .error "From address not provided and no default set"⟩)
    ∧ (∀ args env cfg f, load_config env.file = .ok cfg →
      optOr args.«from» cfg.default_from = some f →
      optOr args.«to» cfg.default_to = none →
      runSend args env = ⟨[], .error "To address not provided and no default set"⟩)
    ∧ (∀ args env cfg f t subj, load_config env.file = .ok cfg →
      args.id = none → args.from_stdin = false → args.subject = some subj →
      optOr args.«from» cfg.default_from = some f →
      optOr args.«to» cfg.default_to = some t →
      (runSend args env).calls =
        [.send cfg.api_key
          { «from» := f, «to» := parse_to_vec t, subject := subj,
            html := args.html, text := args.text }])
    ∧ (runSend
        { «from» := some "C_F", «to» := none, subject := some "s",
          html := none, text := none, from_stdin := false, id := none }
        { envBase with
          file := save_config
            { api_key := "k", default_from := some "D_F", default_to := some "D_T" } }).calls =
      [.send "k"
        { «from» := "C_F", «to» := ["D_T"], subject := "s", html := none, text := none }] := by
  refine ⟨?_, ?_, ?_, ?_⟩
  · intro args env cfg h1 h2
    simp only [runSend, h1, h2]
  · intro args env cfg f h1 h2 h3
    simp only [runSend, h1, h2, h3]
  · intro args env cfg f t subj h1 hid hstdin hsubj hf ht
    simp only [runSend, h1, hf, ht, hid, hstdin]
    cases hh : args.html <;> cases htx : args.text <;>
      cases hsr : env.sendResult <;>
        simp [hsubj, CreateEmailBaseOptions.new, CreateEmailBaseOptions.with_html,
          CreateEmailBaseOptions.with_text]
  · rfl

/-- Witness for C6 at concrete inputs. -/
theorem send_address_resolution_witness :
    runSend
        { «from» := none, «to» := none, subject := some "s",
          html := none, text := none, from_stdin := false, id := none }
        envBase =
      ⟨[], .error "From address not provided and no default set"⟩ :=
  send_address_resolution.1 _ envBase defaultConfig rfl rfl

/-- Claim C7: forwarding (`--id`) reuses the fetched email's html/text
bodies and defaults the subject to `"Fwd: "` plus the original subject
unless `--subject` overrides it. -/
theorem send_forwarding :
    (∀ args env cfg f t eid r, load_config env.file = .ok cfg →
      optOr args.«from» cfg.default_from = some f →
      optOr args.«to» cfg.default_to = some t →
      args.id = some eid →
      env.receivedGet eid = .ok r →
      (runSend args env).calls =
        [.getReceived cfg.api_key eid,
         .send cfg.api_key
           { «from» := f, «to» := parse_to_vec t,
             subject := args.subject.getD ("Fwd: " ++ r.subject),
             html := r.html, text := r.text }])
    ∧ (runSend
        { «from» := none, «to» := none, subject := none,
          html := none, text := none, from_stdin := false, id := some "E1" }
        { envBase with
          file := save_config
            { api_key := "k", default_from := some "F", default_to := some "T" },
          receivedGet := fun i =>
            if i = "E1" then
              .ok { id := "E1", created_at := "2024", «from» := "x@y",
                    «to» := ["T"], subject := "Hello",
                    html := some "<p>hi</p>", text := some "hi" }
            else .error "not found" }).calls =
      [.getReceived "k" "E1",
       .send "k"
         { «from» := "F", «to» := ["T"], subject := "Fwd: Hello",
           html := some "<p>hi</p>", text := some "hi" }] := by
  constructor
  · intro args env cfg f t eid r h1 hf ht hid hrg
    simp only [runSend, h1, hf, ht, hid, resolve_received_email_id, hrg]
    cases hh : r.html <;> cases htx : r.text <;>
      cases hsr : env.sendResult <;>
        simp [CreateEmailBaseOptions.new, CreateEmailBaseOptions.with_html,
          CreateEmailBaseOptions.with_text]
  · rfl

/-- Witness for C7 at concrete inputs (subject override present). -/
theorem send_forwarding_witness :
    (runSend
        { «from» := some "F", «to» := some "T", subject := some "Re: x",
          html := none, text := none, from_stdin := false, id := some "E2" }
        { envBase with
          receivedGet := fun _ =>
            .ok { id := "E2", created_at := "2024", «from» := "x@y",
                  «to» := ["T"], subject := "orig",
                  html := none, text := some "body" } }).calls =
      [.getReceived "" "E2",
       .send ""
         { «from» := "F", «to» := ["T"], subject := "Re: x",
           html := none, text := some "body" }] :=
  send_forwarding.1 _ _ defaultConfig "F" "T" "E2"
    { id := "E2", created_at := "2024", «from» := "x@y", «to» := ["T"],
      subject := "orig", html := none, text := some "body" }
    rfl rfl rfl rfl rfl

/-- Claim C10: with `--from-stdin` (and no `--id`), the whole stdin
content becomes the HTML body (not the text body), `--html` is ignored,
and `--text` is still used. -/
theorem send_stdin_html_body :
    (∀ args env cfg f t subj sIn, load_config env.file = .ok cfg →
      args.id = none → args.from_stdin = true →
      env.stdinAll = .ok sIn → args.subject = some subj →
      optOr args.«from» cfg.default_from = some f →
      optOr args.«to» cfg.default_to = some t →
      (runSend args env).calls =
        [.send cfg.api_key
          { «from» := f, «to» := parse_to_vec t, subject := subj,
            html := some sIn, text := args.text }])
    ∧ (∀ (args : SendArgs) (env : Env) (h1 h2 : Option String),
      args.id = none → args.from_stdin = true →
      runSend { args with html := h1 } env = runSend { args with html := h2 } env) := by
  constructor
  · intro args env cfg f t subj sIn h1 hid hstdin hin hsubj hf ht
    simp only [runSend, h1, hf, ht, hid, hstdin, hin]
    cases htx : args.text <;>
      cases hsr : env.sendResult <;>
        simp [hsubj, CreateEmailBaseOptions.new, CreateEmailBaseOptions.with_html,
          CreateEmailBaseOptions.with_text, Except.map]
  · intro args env h1 h2 hid hstdin
    simp only [runSend, hid, hstdin, if_true]

/-- Witness for C10 at concrete inputs. -/
theorem send_stdin_html_body_witness :
    (runSend
        { «from» := some "F", «to» := some "T", subject := some "s",
          html := some "IGNORED", text := some "txt", from_stdin := true, id := none }
        { envBase with stdinAll := .ok "<h1>stdin</h1>" }).calls =
      [.send ""
        { «from» := "F", «to» := ["T"], subject := "s",
          html := some "<h1>stdin</h1>", text := some "txt" }] :=
  send_stdin_html_body.1 _ _ defaultConfig "F" "T" "s" "<h1>stdin</h1>"
    rfl rfl rfl rfl rfl rfl rfl

/-! ## Identifier resolution (claim C8) -/

/-- Claim C8: a provided id is returned unchanged with no list call; with
no id, the first element of the remote listing is used; an empty listing
fails with the "no emails available" error, and the subsequent fetch is
never attempted. -/
theorem resolve_id_spec :
    (∀ key env id, resolve_sent_email_id key env (some id) = ([], .ok id))
    ∧ (∀ key env id, resolve_received_email_id key env (some id) = ([], .ok id))
    ∧ (∀ key env e rest, env.sentList = .ok (e :: rest) →
        resolve_sent_email_id key env none = ([.listSent key], .ok e.id))
    ∧ (∀ key env e rest, env.receivedList = .ok (e :: rest) →
        resolve_received_email_id key env none = ([.listReceived key], .ok e.id))
    ∧ (∀ key env, env.sentList = .ok [] →
        resolve_sent_email_id key env none =
          ([.listSent key], .error "No sent emails available to display."))
    ∧ (∀ key env, env.receivedList = .ok [] →
        resolve_received_email_id key env none =
          ([.listReceived key], .error "No received emails available to display."))
    ∧ (∀ env cfg, load_config env.file = .ok cfg → env.sentList = .ok [] →
        runGet none env =
          ⟨[.listSent cfg.api_key], .error "No sent emails available to display."⟩)
    ∧ (∀ env cfg, load_config env.file = .ok cfg → env.receivedList = .ok [] →
        runReceivedGet none env =
          ⟨[.listReceived cfg.api_key], .error "No received emails available to display."⟩)
    ∧ (∀ env cfg e rest, load_config env.file = .ok cfg → env.sentList = .ok (e :: rest) →
        (runGet none env).calls = [.listSent cfg.api_key, .getSent cfg.api_key e.id]) := by
  refine ⟨fun key env id => rfl, fun key env id => rfl, ?_, ?_, ?_, ?_, ?_, ?_, ?_⟩
  · intro key env e rest h
    simp only [resolve_sent_email_id, h]
  · intro key env e rest h
    simp only [resolve_received_email_id, h]
  · intro key env h
    simp only [resolve_sent_email_id, h]
  · intro key env h
    simp only [resolve_received_email_id, h]
  · intro env cfg h1 h2
    simp only [runGet, h1, resolve_sent_email_id, h2]
  · intro env cfg h1 h2
    simp only [runReceivedGet, h1, resolve_received_email_id, h2]
  · intro env cfg e rest h1 h2
    simp only [runGet, h1, resolve_sent_email_id, h2]
    cases hg : env.sentGet e.id <;> simp

/-- A sample listed email used by the C8 witness. -/
def emailOne : EmailRec :=
  { id := "em_1", created_at := "2024", «from» := "a", «to» := ["b"],
    subject := "s", html := none, text := none }

/-- Witness for C8 at concrete inputs: provided id, first-of-list, and the
empty-list failure with no fetch. -/
theorem resolve_id_spec_witness :
    resolve_sent_email_id "k" envBase (some "em_9") = ([], .ok "em_9")
    ∧ resolve_sent_email_id "k" { envBase with sentList := .ok [emailOne] } none =
        ([.listSent "k"], .ok "em_1")
    ∧ runGet none envBase =
        ⟨[.listSent ""], .error "No sent emails available to display."⟩ :=
  ⟨resolve_id_spec.1 "k" envBase "em_9",
   resolve_id_spec.2.2.1 "k" _ emailOne [] rfl,
   resolve_id_spec.2.2.2.2.2.2.1 envBase defaultConfig rfl rfl⟩

/-! ## Batch atomicity (claim C9) -/

/-- A batch file whose second record (of three) lacks the required
`subject` field. -/
def badBatchJson : String :=
  "[\x7b\"from\": \"a@x.com\", \"to\": [\"b@y.com\"], \"subject\": \"s1\"\x7d, \x7b\"from\": \"a@x.com\", \"to\": [\"b@y.com\"]\x7d, \x7b\"from\": \"a@x.com\", \"to\": [\"b@y.com\"], \"subject\": \"s3\"\x7d]"

set_option maxRecDepth 8000 in
/-- Claim C9: if the batch file's JSON array fails to parse (any record
invalid), the whole batch command fails with no remote call; in
particular for a 3-element file whose second element lacks `subject`. -/
theorem batch_atomic_parse_failure :
    (∀ env cfg content, load_config env.file = .ok cfg →
      env.batchFile = .ok content →
      parseBatchInput content = none →
      runBatch env = ⟨[], .error "parse json"⟩)
    ∧ parseBatchInput badBatchJson = none
    ∧ runBatch { envBase with batchFile := .ok badBatchJson } =
        ⟨[], .error "parse json"⟩ := by
  refine ⟨?_, by decide, rfl⟩
  intro env cfg content h1 h2 h3
  simp only [runBatch, h1, h2, h3]

set_option maxRecDepth 8000 in
/-- Witness for C9: the general statement applied at the concrete bad
batch file. -/
theorem batch_atomic_parse_failure_witness :
    runBatch { envBase with batchFile := .ok badBatchJson } =
      ⟨[], .error "parse json"⟩ :=
  batch_atomic_parse_failure.1 _ defaultConfig badBatchJson rfl rfl (by decide)

/-! ## No api_key precondition check (claim C1) -/

/-- Counterexample to C1 as stated: with an absent config file the loaded
config's `api_key` is empty, yet `cancel` succeeds (when the remote call
succeeds) instead of failing — there is no local precondition check. -/
theorem no_api_key_check_counterexample :
    ¬ (∀ id env cfg, load_config env.file = .ok cfg → cfg.api_key = "" →
        ∃ m, (runCancel id env).result = .error m) := by
  intro h
  obtain ⟨m, hm⟩ := h "em_1" envBase defaultConfig rfl rfl
  rw [show (runCancel "em_1" envBase).result = .ok () from rfl] at hm
  exact Except.noConfusion hm

/-- Amended C1: no command other than `config`/`completions` checks the
api_key; each one proceeds to issue its remote call, passing the (empty)
loaded key to the client. -/
theorem empty_api_key_commands_proceed :
    (∀ env cfg, load_config env.file = .ok cfg → cfg.api_key = "" →
      (runCancel "em_1" env).calls = [.cancel "" "em_1"])
    ∧ (∀ env cfg, load_config env.file = .ok cfg → cfg.api_key = "" →
      (runUpdate "em_1" none env).calls = [.update "" "em_1" none])
    ∧ (∀ env cfg, load_config env.file = .ok cfg → cfg.api_key = "" →
      (runList none env).calls = [.listSent ""])
    ∧ (∀ env cfg, load_config env.file = .ok cfg → cfg.api_key = "" →
      (runReceivedList none env).calls = [.listReceived ""])
    ∧ (∀ env cfg, load_config env.file = .ok cfg → cfg.api_key = "" →
      (runGet (some "em_1") env).calls = [.getSent "" "em_1"])
    ∧ (∀ env cfg, load_config env.file = .ok cfg → cfg.api_key = "" →
      (runReceivedGet (some "em_1") env).calls = [.getReceived "" "em_1"])
    ∧ (∀ env cfg content bs, load_config env.file = .ok cfg → cfg.api_key = "" →
      env.batchFile = .ok content → parseBatchInput content = some bs →
      (runBatch env).calls = [.batchSend "" (bs.map toEmailMessage)])
    ∧ (∀ env cfg, load_config env.file = .ok cfg → cfg.api_key = "" →
      (runSend
        { «from» := some "f", «to» := some "t", subject := some "s",
          html := none, text := none, from_stdin := false, id := none } env).calls =
        [.send ""
          { «from» := "f", «to» := parse_to_vec "t", subject := "s",
            html := none, text := none }]) := by
  refine ⟨?_, ?_, ?_, ?_, ?_, ?_, ?_, ?_⟩
  · intro env cfg h1 hk
    simp only [runCancel, h1]
    cases hc : env.cancelResult <;> simp [hk]
  · intro env cfg h1 hk
    simp only [runUpdate, h1]
    cases hc : env.updateResult <;> simp [hk]
  · intro env cfg h1 hk
    simp only [runList, h1]
    cases hc : env.sentList <;> simp [hk]
  · intro env cfg h1 hk
    simp only [runReceivedList, h1]
    cases hc : env.receivedList <;> simp [hk]
  · intro env cfg h1 hk
    simp only [runGet, h1, resolve_sent_email_id]
    cases hg : env.sentGet "em_1" <;> simp [hk]
  · intro env cfg h1 hk
    simp only [runReceivedGet, h1, resolve_received_email_id]
    cases hg : env.receivedGet "em_1" <;> simp [hk]
  · intro env cfg content bs h1 hk h2 h3
    simp only [runBatch, h1, h2, h3]
    cases hb : env.batchSendResult <;> simp [hk]
  · intro env cfg h1 hk
    simp only [runSend, h1, optOr]
    cases hs : env.sendResult <;>
      simp [hk, CreateEmailBaseOptions.new]

/-- Witness for the amended C1: an absent config file yields an empty key
and the cancel call is still issued with it. -/
theorem empty_api_key_commands_proceed_witness :
    (runCancel "em_1" envBase).calls = [.cancel "" "em_1"] :=
  empty_api_key_commands_proceed.1 envBase defaultConfig rfl rfl

/-! ## Error propagation (claim C2) -/

/-- Counterexample to C2 as stated: in the `config` command a config-load
failure does not abort — `load_config().unwrap_or_default()` swallows the
error and the command succeeds. -/
theorem config_load_failure_not_fatal :
    ¬ (∀ env a m0, load_config env.file = .error m0 →
        ∃ m, (runConfig a env).result = .error m) := by
  intro h
  obtain ⟨m, hm⟩ :=
    h { envBase with file := .ioError }
      { key := some "re_k", default_from := none, default_to := none }
      "read config file" rfl
  rw [show (runConfig
      { key := some "re_k", default_from := none, default_to := none }
      { envBase with file := .ioError }).result = .ok () from rfl] at hm
  exact Except.noConfusion hm

/-- Amended C2: failures from file I/O, JSON parsing and remote calls
abort their command with a descriptive message, and config-load failures
abort every command except `config`, which falls back to the default
configuration and proceeds (its stdin and save failures still abort). -/
theorem failures_abort_amended :
    (∀ env k dfa dta, env.file = .ioError → env.saveOk = true →
      runConfig { key := some k, default_from := dfa, default_to := dta } env =
        ⟨[], .ok ()⟩)
    ∧ (∀ env cfg id e, load_config env.file = .ok cfg → env.cancelResult = .error e →
      (runCancel id env).result = .error (ctx "cancel failed" e))
    ∧ (∀ env args, env.file = .ioError →
      runSend args env = ⟨[], .error "read config file"⟩)
    ∧ (∀ env, env.file = .ioError → runBatch env = ⟨[], .error "read config file"⟩)
    ∧ (∀ env c, env.file = .ioError → runList c env = ⟨[], .error "read config file"⟩)
    ∧ (∀ env id, env.file = .ioError → runGet id env = ⟨[], .error "read config file"⟩)
    ∧ (∀ env id sa, env.file = .ioError →
      runUpdate id sa env = ⟨[], .error "read config file"⟩)
    ∧ (∀ env id, env.file = .ioError → runCancel id env = ⟨[], .error "read config file"⟩)
    ∧ (∀ env c, env.file = .ioError →
      runReceivedList c env = ⟨[], .error "read config file"⟩)
    ∧ (∀ env id, env.file = .ioError →
      runReceivedGet id env = ⟨[], .error "read config file"⟩)
    ∧ (∀ env k dfa dta, env.saveOk = false →
      runConfig { key := some k, default_from := dfa, default_to := dta } env =
        ⟨[], .error "write config file"⟩)
    ∧ (∀ env dfa dta e, env.file = .absent → env.stdinLine = .error e →
      runConfig { key := none, default_from := dfa, default_to := dta } env =
        ⟨[], .error (ctx "failed to read api key" e)⟩)
    ∧ (∀ env cfg e, load_config env.file = .ok cfg → env.batchFile = .error e →
      runBatch env = ⟨[], .error (ctx "read batch file" e)⟩)
    ∧ (∀ env cfg content, load_config env.file = .ok cfg → env.batchFile = .ok content →
      parseBatchInput content = none → runBatch env = ⟨[], .error "parse json"⟩)
    ∧ (∀ env cfg id e, load_config env.file = .ok cfg → env.updateResult = .error e →
      (runUpdate id none env).result = .error (ctx "update failed" e))
    ∧ (∀ env cfg e, load_config env.file = .ok cfg → env.sentList = .error e →
      (runList none env).result = .error (ctx "list failed" e))
    ∧ (∀ env cfg e, load_config env.file = .ok cfg → env.receivedList = .error e →
      (runReceivedList none env).result = .error (ctx "list receiving failed" e))
    ∧ (∀ env cfg id e, load_config env.file = .ok cfg → env.sentGet id = .error e →
      (runGet (some id) env).result = .error (ctx "get failed" e))
    ∧ (∀ env cfg id e, load_config env.file = .ok cfg → env.receivedGet id = .error e →
      (runReceivedGet (some id) env).result = .error (ctx "get receiving failed" e))
    ∧ (∀ env cfg e, load_config env.file = .ok cfg → env.sendResult = .error e →
      (runSend
        { «from» := some "f", «to» := some "t", subject := some "s",
          html := none, text := none, from_stdin := false, id := none } env).result =
        .error (ctx "send failed" e))
    ∧ (∀ env cfg content bs e, load_config env.file = .ok cfg →
      env.batchFile = .ok content → parseBatchInput content = some bs →
      env.batchSendResult = .error e →
      (runBatch env).result = .error (ctx "batch send failed" e)) := by
  refine ⟨?_, ?_, ?_, ?_, ?_, ?_, ?_, ?_, ?_, ?_, ?_, ?_, ?_, ?_, ?_, ?_, ?_, ?_, ?_, ?_, ?_⟩
  · intro env k dfa dta h1 h2
    simp only [runConfig, h1, load_config, runConfigFinish, h2]
    simp
  · intro env cfg id e h1 h2
    simp only [runCancel, h1, h2]
  · intro env args h
    simp only [runSend, h, load_config]
  · intro env h
    simp only [runBatch, h, load_config]
  · intro env c h
    simp only [runList, h, load_config]
  · intro env id h
    simp only [runGet, h, load_config]
  · intro env id sa h
    simp only [runUpdate, h, load_config]
  · intro env id h
    simp only [runCancel, h, load_config]
  · intro env c h
    simp only [runReceivedList, h, load_config]
  · intro env id h
    simp only [runReceivedGet, h, load_config]
  · intro env k dfa dta h
    simp only [runConfig, runConfigFinish, h]
    simp
  · intro env dfa dta e h1 h2
    simp only [runConfig, h1, load_config, h2]
    simp [defaultConfig]
  · intro env cfg e h1 h2
    simp only [runBatch, h1, h2]
  · intro env cfg content h1 h2 h3
    simp only [runBatch, h1, h2, h3]
  · intro env cfg id e h1 h2
    simp only [runUpdate, h1, h2]
  · intro env cfg e h1 h2
    simp only [runList, h1, h2]
  · intro env cfg e h1 h2
    simp only [runReceivedList, h1, h2]
  · intro env cfg id e h1 h2
    simp only [runGet, h1, resolve_sent_email_id, h2]
  · intro env cfg id e h1 h2
    simp only [runReceivedGet, h1, resolve_received_email_id, h2]
  · intro env cfg e h1 h2
    simp only [runSend, h1, optOr, h2]
    simp
  · intro env cfg content bs e h1 h2 h3 h4
    simp only [runBatch, h1, h2, h3, h4]

/-- Witness for the amended C2: the `config` exception succeeds despite a
load failure, and a failing remote cancel aborts with its context. -/
theorem failures_abort_amended_witness :
    runConfig { key := some "re_k", default_from := none, default_to := none }
        { envBase with file := .ioError } = ⟨[], .ok ()⟩
    ∧ (runCancel "em_1" { envBase with cancelResult := .error "boom" }).result =
        .error (ctx "cancel failed" "boom") :=
  ⟨failures_abort_amended.1 _ "re_k" none none rfl rfl,
   failures_abort_amended.2.1 _ defaultConfig "em_1" "boom" rfl rfl⟩
